import Mathlib

/-!
Verification development for a recipe parser and transformer
(`main.py`, `recipe.py`, `util.py`).

The Python source is shallowly embedded below.  Python strings are `String`
(operated on through their `List Char` data); Python `Fraction` is `ℚ`
(Python's `Fraction` keeps values normalized, as `ℚ` does); Python `None` is
`Option.none`.  External collaborators (the spaCy NLP engine and the WordNet
noun/verb classifier) are passed in as function parameters, since the code
only consumes their results.  Python float arithmetic in `match_score`
(`score / (max(..) + 1)`) and the scaling factor `0.5` are embedded as exact
rationals; the concrete values arising there (small ratios, and the dyadic
`0.5`) are exactly representable, so the embedding is faithful on the
reachable values.
-/

/-! ## Basic character and string utilities -/

/-- The ten ASCII digit characters. -/
def digitList : List Char := ['0', '1', '2', '3', '4', '5', '6', '7', '8', '9']

/-- Decimal digit character for `d < 10`. -/
def digitChar : ℕ → Char
  | 0 => '0' | 1 => '1' | 2 => '2' | 3 => '3' | 4 => '4'
  | 5 => '5' | 6 => '6' | 7 => '7' | 8 => '8' | _ => '9'

/-- Value of a digit string read left to right (no validation). -/
def digitsToNat (l : List Char) : ℕ :=
  l.foldl (fun a c => 10 * a + (c.toNat - 48)) 0

/-- Decimal digit expansion with explicit fuel (the recursion depth is at
most the number of digits, so any `fuel > n` is enough). -/
def natToDigitsGo : ℕ → ℕ → List Char
  | 0, _ => []
  | fuel + 1, n =>
    if n < 10 then [digitChar n]
    else natToDigitsGo fuel (n / 10) ++ [digitChar (n % 10)]

/-- Decimal digit expansion of a natural number, most significant first.
This is how Python's `str` renders a nonnegative `int`. -/
def natToDigits (n : ℕ) : List Char := natToDigitsGo (n + 1) n

/-- Python `str(n)` for a natural number. -/
def natToStr (n : ℕ) : String := ⟨natToDigits n⟩

/-- Python `str(m)` for an integer. -/
def intToStr (m : ℤ) : String :=
  if m < 0 then "-" ++ natToStr m.natAbs else natToStr m.toNat

/-- The whitespace characters Python's no-argument `str.split` and `str.strip`
split and strip on (ASCII subset; the inputs here are ASCII). -/
def pyIsSpace (c : Char) : Bool :=
  c = ' ' || c = '\t' || c = '\n' || c = '\x0d' || c = '\x0b' || c = '\x0c'

/-- Helper for `wsSplit`: `cur` is the current word accumulated in reverse. -/
def wsSplitAux (cur : List Char) : List Char → List (List Char)
  | [] => if cur.isEmpty then [] else [cur.reverse]
  | c :: r =>
    if pyIsSpace c then
      if cur.isEmpty then wsSplitAux [] r else cur.reverse :: wsSplitAux [] r
    else wsSplitAux (c :: cur) r

/-- Python `str.split()` with no argument: split on runs of whitespace,
discarding empty words. -/
def wsSplit (l : List Char) : List (List Char) := wsSplitAux [] l

/-- Python `str.strip()` (no argument): remove leading and trailing
whitespace. -/
def pyStrip (s : String) : String :=
  ⟨((s.data.dropWhile pyIsSpace).reverse.dropWhile pyIsSpace).reverse⟩

/-- Python `str.strip(chars)`: remove leading and trailing characters drawn
from `cs`. -/
def pyStripChars (cs : List Char) (s : String) : String :=
  ⟨((s.data.dropWhile (cs.contains ·)).reverse.dropWhile (cs.contains ·)).reverse⟩

/-- Python slice `s[a:b]` by character index (clamping, as Python does). -/
def pySlice (s : String) (a b : ℕ) : String := ⟨(s.data.drop a).take (b - a)⟩

/-- Python slice `s[a:]`. -/
def sliceFrom (s : String) (a : ℕ) : String := ⟨s.data.drop a⟩

/-- Python `str.lower()` (ASCII case mapping; the strings compared in this
program are ASCII). -/
def pyLower (s : String) : String := ⟨s.data.map Char.toLower⟩

/-- Does `l` start with `p` (character-exact)? -/
def listStarts : List Char → List Char → Bool
  | [], _ => true
  | _ :: _, [] => false
  | a :: as, b :: bs => a = b && listStarts as bs

/-- Python's `a in b` on strings: is `needle` a contiguous substring of
`hay`?  (Case-sensitive, like Python's `in`.) -/
def isSubstr (needle hay : List Char) : Bool :=
  match hay with
  | [] => needle.isEmpty
  | _ :: t => listStarts needle hay || isSubstr needle t

/-- Does `l` start with `p`, compared case-insensitively (ASCII), as a
regex-with-`re.IGNORECASE` literal match does? -/
def ciStarts : List Char → List Char → Bool
  | [], _ => true
  | _ :: _, [] => false
  | a :: as, b :: bs => a.toLower = b.toLower && ciStarts as bs

/-- A regex word character (`\w`): alphanumeric or underscore (ASCII subset;
all substitution-table keys are ASCII letters). -/
def isWordChar (c : Char) : Bool := c.isAlphanum || c = '_'

/-! ## Quantity parser (`util.py`: `str_to_fraction`, `fraction_to_str`) -/

/-- NFKD decompositions, per `unicodedata.normalize("NFKD", ...)`, of the
numeric characters a scraped quantity string can contain: the Unicode vulgar
fractions, and the fullwidth, superscript and subscript digit and sign
forms.  Characters without a decomposition (all ASCII in particular) are
left alone; non-numeric characters with decompositions never reach a
parseable token, so identity on them is immaterial to the quantity sum. -/
def nfkdTable : List (Char × List Char) :=
  [('½', ['1', '⁄', '2']), ('⅓', ['1', '⁄', '3']), ('⅔', ['2', '⁄', '3']),
   ('¼', ['1', '⁄', '4']), ('¾', ['3', '⁄', '4']), ('⅕', ['1', '⁄', '5']),
   ('⅖', ['2', '⁄', '5']), ('⅗', ['3', '⁄', '5']), ('⅘', ['4', '⁄', '5']),
   ('⅙', ['1', '⁄', '6']), ('⅚', ['5', '⁄', '6']), ('⅐', ['1', '⁄', '7']),
   ('⅛', ['1', '⁄', '8']), ('⅜', ['3', '⁄', '8']), ('⅝', ['5', '⁄', '8']),
   ('⅞', ['7', '⁄', '8']), ('⅑', ['1', '⁄', '9']), ('⅒', ['1', '⁄', '1', '0']),
   ('↉', ['0', '⁄', '3']),
   ('０', ['0']), ('１', ['1']), ('２', ['2']), ('３', ['3']), ('４', ['4']),
   ('５', ['5']), ('６', ['6']), ('７', ['7']), ('８', ['8']), ('９', ['9']),
   ('⁰', ['0']), ('¹', ['1']), ('²', ['2']), ('³', ['3']), ('⁴', ['4']),
   ('⁵', ['5']), ('⁶', ['6']), ('⁷', ['7']), ('⁸', ['8']), ('⁹', ['9']),
   ('₀', ['0']), ('₁', ['1']), ('₂', ['2']), ('₃', ['3']), ('₄', ['4']),
   ('₅', ['5']), ('₆', ['6']), ('₇', ['7']), ('₈', ['8']), ('₉', ['9']),
   ('／', ['/']), ('．', ['.']), ('＋', ['+']), ('－', ['-'])]

/-- Per-character NFKD model (identity outside `nfkdTable`). -/
def nfkdChar (c : Char) : List Char :=
  match nfkdTable.lookup c with
  | some d => d
  | none => [c]

/-- `unicodedata.normalize("NFKD", data).translate({"⁄": "/"})` from
`str_to_fraction`. -/
def pyNorm (s : String) : String :=
  ⟨((s.data.map nfkdChar).flatten).map (fun c => if c = '⁄' then '/' else c)⟩

/-- Leading sign of a numeric token: returns (negative?, rest). -/
def readNeg (l : List Char) : Bool × List Char :=
  match l with
  | [] => (false, [])
  | c :: r =>
    if c = '+' then (false, r)
    else if c = '-' then (true, r)
    else (false, c :: r)

/-- Python `Fraction(tok)` for a whitespace-free token: accepts
`[sign] digits ['/' digits]` and `[sign] [digits] ['.' [digits]] [e [sign] digits]`
with at least one digit before the exponent, rejecting anything else (a
rejected token raises `ValueError`, and a zero denominator raises
`ZeroDivisionError`; both are caught by the bare `except` in
`str_to_fraction`, so both are `none` here).  The result is normalized, as
Python's `Fraction` is. -/
def parseFraction (tok : List Char) : Option ℚ :=
  let (neg, r0) := readNeg tok
  let ds := r0.takeWhile Char.isDigit
  let r1 := r0.dropWhile Char.isDigit
  match r1 with
  | '/' :: r2 =>
    if ds ≠ [] ∧ r2 ≠ [] ∧ r2.all Char.isDigit then
      let den := digitsToNat r2
      if den = 0 then none
      else some ((if neg then -1 else 1) * mkRat (digitsToNat ds) den)
    else none
  | _ =>
    let hasDot := r1.head? = some '.'
    let fds := if hasDot then r1.tail.takeWhile Char.isDigit else []
    let r2 := if hasDot then r1.tail.dropWhile Char.isDigit else r1
    if ds = [] ∧ fds = [] then none
    else
      let base : ℚ := mkRat (digitsToNat (ds ++ fds)) (10 ^ fds.length)
      match r2 with
      | [] => some ((if neg then -1 else 1) * base)
      | e :: r3 =>
        if e = 'e' ∨ e = 'E' then
          let (eneg, r4) := readNeg r3
          if r4 ≠ [] ∧ r4.all Char.isDigit then
            let ex := digitsToNat r4
            some ((if neg then -1 else 1) *
              (if eneg then base / 10 ^ ex else base * 10 ^ ex))
          else none
        else none

/-- Round-half-even of the rational `num / den` (`den > 0`): the rounding
IEEE-754 binary arithmetic uses. -/
def rhe (num den : ℕ) : ℕ :=
  let q := num / den
  let r := num % den
  if den < 2 * r then q + 1
  else if 2 * r < den then q
  else if q % 2 = 0 then q else q + 1

/-- Floor base-2 logarithm with explicit fuel. -/
def log2go : ℕ → ℕ → ℕ
  | 0, _ => 0
  | fuel + 1, n => if n ≤ 1 then 0 else log2go fuel (n / 2) + 1

/-- `⌊log₂ n⌋` for `n ≥ 1` (0 at 0). -/
def natLog2 (n : ℕ) : ℕ := log2go n n

/-- CPython's `int(a / 10)` for an int `a > 10`: `a / 10` is true division
through an IEEE-754 double — the exact quotient is rounded to 53 significant
bits, round-half-even — and `int` then truncates.  The binade is found from
`⌊log₂ ⌊a/10⌋⌋`, which equals `⌊log₂ (a/10)⌋` for quotients `≥ 1`; a
mantissa that rounds up to `2^53` moves up one binade; quotients at or above
`2^1024` raise `OverflowError` instead of producing a float.  For `a` below
`2^52` the result equals the floor division `a / 10`
(`pyIntDivTen_small` below); for larger `a` it can differ, e.g.
`int(99999999999999999 / 10) = 10^16`, one above the floor. -/
def pyIntDivTen (a : ℕ) : Except String ℕ :=
  let n := natLog2 (a / 10)
  if 52 ≤ n then
    let e := n - 52
    let m := rhe a (10 * 2 ^ e)
    let me : ℕ × ℕ := if m = 2 ^ 53 then (2 ^ 52, e + 1) else (m, e)
    if 972 ≤ me.2 then
      .error "OverflowError: integer division result too large for a float"
    else .ok (me.1 * 2 ^ me.2)
  else
    let s := 52 - n
    .ok (rhe (a * 2 ^ s) 10 / 2 ^ s)

/-- The malformed-fraction heuristic inside `str_to_fraction`: when the
parsed (normalized) fraction has `denominator > 1` and `numerator > 10`,
reinterpret it as `Fraction(numerator % 10 + int(numerator / 10) *
denominator, denominator)`.  The division by 10 is float-mediated
(`pyIntDivTen`); its `OverflowError` propagates (`Except.error`) to the
enclosing bare `except`. -/
def fracHeur (q : ℚ) : Except String ℚ :=
  if 1 < q.den ∧ 10 < q.num then
    match pyIntDivTen q.num.toNat with
    | .error e => .error e
    | .ok d => .ok (mkRat (q.num % 10 + (d : ℤ) * (q.den : ℤ)) q.den)
  else .ok q

/-- `util.py` `str_to_fraction`: normalize, split on whitespace, and sum the
parseable tokens (after the heuristic), silently skipping the rest — the
bare `except` also swallows an `OverflowError` raised inside the heuristic,
so such a token contributes nothing. -/
def strToFraction (s : String) : ℚ :=
  (wsSplit (pyNorm s).data).foldl
    (fun sum tok =>
      match parseFraction tok with
      | none => sum
      | some f =>
        match fracHeur f with
        | .error _ => sum
        | .ok f2 => sum + f2) 0

/-- Python `str(Fraction)`: `"num"` when the denominator is 1, else
`"num/den"`. -/
def pyFracRepr (q : ℚ) : String :=
  if q.den = 1 then intToStr q.num
  else intToStr q.num ++ "/" ++ natToStr q.den

/-- `util.py` `fraction_to_str`.  In the mixed-number branch the numerator is
at least the (positive) denominator, so Python's floor `//` and `%` agree
with natural-number division here. -/
def fractionToStr (q : ℚ) : String :=
  if q.den = 1 then intToStr q.num
  else if (q.den : ℤ) ≤ q.num then
    natToStr (q.num.toNat / q.den) ++ " " ++ pyFracRepr (mkRat (q.num.toNat % q.den : ℕ) q.den)
  else pyFracRepr q

/-! ## Data model (`recipe.py`, `util.py`) -/

/-- `util.py` `NounType` (the `UNKNOWN` member is never produced by
`NounType.from_str`, which returns a set of the four real categories). -/
inductive NounType where
  | FOOD | MEASURE | TEMPERATURE | TOOL
deriving DecidableEq, Repr

/-- One spaCy token as `Ingredient.from_str` consumes it: surface text,
start character offset (`token.idx`), POS tag (`token.pos_`), dependency
label (`token.dep_`), and the index of its dependency head
(`token.head.i`).  spaCy itself is an external collaborator; token lists are
passed in. -/
structure Token where
  text : String
  idx : ℕ
  pos : String
  dep : String
  headI : ℕ
deriving DecidableEq, Repr

instance : Inhabited Token := ⟨⟨"", 0, "", "", 0⟩⟩

/-- `recipe.py` `Ingredient`: the five text/number fields plus the `used`
back-reference set of `(step, step.ingr)` index pairs (a Python `set`). -/
structure IngredientV where
  name : String
  quantity : Option ℚ
  unit : Option String
  descriptors : String
  preparation : String
  used : Finset (ℕ × ℕ)
deriving DecidableEq

/-- An `Ingredient()` fresh from the constructor with only `name` set, as the
noun-phrase parses in steps mostly are. -/
def mkIngr (name : String) : IngredientV :=
  ⟨name, none, none, "", "", ∅⟩

/-- `recipe.py` `Step`. -/
structure StepV where
  text : String
  ingredients : List IngredientV
  tools : List String
  methods : List String
  times : List String
  temps : List String
deriving DecidableEq

/-! ## Ingredient segmenter (`recipe.py`: `Ingredient.from_str`) -/

/-- Walk the remaining tokens (the suffix of `doc` starting at index `ind`)
looking for the first one satisfying `p`, returning its absolute index. -/
def firstSuchGo (p : Token → Bool) : ℕ → List Token → Option ℕ
  | _, [] => none
  | ind, t :: rest => if p t then some ind else firstSuchGo p (ind + 1) rest

/-- First token index at or after `i` whose token satisfies `p`
(shape of the `for ind in range(i, len(doc)) ... break` scans). -/
def firstSuch (doc : List Token) (p : Token → Bool) (i : ℕ) : Option ℕ :=
  firstSuchGo p i (doc.drop i)

/-- The unit scan of `from_str` over the remaining tokens: the Python loop
runs over `range(i, len(doc) - 1)`, so it stops with fewer than two tokens
left.  It tracks parenthesis depth and breaks at the first non-parenthesis
token seen at depth 0, returning that break index. -/
def unitScanGo : ℕ → ℤ → List Token → Option ℕ
  | _, _, [] => none
  | _, _, [_] => none
  | ind, parens, t :: r1 :: rest =>
    if t.text = "(" then unitScanGo (ind + 1) (parens + 1) (r1 :: rest)
    else if t.text = ")" then unitScanGo (ind + 1) (parens - 1) (r1 :: rest)
    else if parens = 0 then some ind
    else unitScanGo (ind + 1) parens (r1 :: rest)

/-- The unit scan started at token index `i` with depth 0. -/
def unitScan (doc : List Token) (i : ℕ) : Option ℕ :=
  unitScanGo i 0 (doc.drop i)

/-- Result of the name/food scan of `from_str`: the final token index `i`,
the final character offset `idx`, the `name` field set by the scan (empty
when it never fired), and the food flag. -/
structure NameScanOut where
  iOut : ℕ
  idxOut : ℕ
  nameOut : String
  isFood : Bool
deriving DecidableEq

/-- The characters `from_str` strips from names and preparations
(`.strip(' .,;:!-')`). -/
def nameStripSet : List Char := [' ', '.', ',', ';', ':', '!', '-']

/-- The name/food scan of `from_str` (its fourth loop), translated
statement by statement over the remaining token suffix.  `nm` is the whole
input line, `idx0` the running character offset (never updated before a
break), `i0` the token index the scan started at, `ind` the current
absolute token index (so `rest = []` means `ind == len(doc) - 1`),
`parens` the depth, `post` the seen-a-comma flag, `isFood` the food
flag. -/
def nameScanGo (cls : String → List NounType) (nm : String) (idx0 i0 : ℕ) :
    ℕ → ℤ → Bool → Bool → List Token → NameScanOut
  | _, _, _, isFood, [] => ⟨i0, idx0, "", isFood⟩
  | ind, parens, post, isFood, t :: rest =>
    if t.text = "(" then nameScanGo cls nm idx0 i0 (ind + 1) (parens + 1) post isFood rest
    else if t.text = ")" then nameScanGo cls nm idx0 i0 (ind + 1) (parens - 1) post isFood rest
    else if 0 < parens then nameScanGo cls nm idx0 i0 (ind + 1) parens post isFood rest
    else if (¬ (t.pos = "NOUN" ∨ t.pos = "PROPN" ∨ t.pos = "ADJ") ∧ t.dep ≠ "ROOT" ∧ t.text ≠ ",") ∨
        (post ∧ (¬ (t.pos = "NOUN" ∨ t.pos = "PROPN" ∨ t.pos = "ADJ") ∨ t.headI < ind)) then
      ⟨ind, t.idx, pyStripChars nameStripSet (pySlice nm idx0 t.idx), isFood⟩
    else
      let post' := t.text = ","
      let isFood' := isFood || decide (NounType.FOOD ∈ cls t.text)
      if isFood' ∧ rest = [] then
        ⟨ind + 1, idx0, pyStripChars nameStripSet (sliceFrom nm idx0), isFood'⟩
      else nameScanGo cls nm idx0 i0 (ind + 1) parens post' isFood' rest

/-- The name/food scan started at token index `i3` with empty state. -/
def nameScan (doc : List Token) (cls : String → List NounType) (nm : String)
    (idx3 i3 : ℕ) : NameScanOut :=
  nameScanGo cls nm idx3 i3 i3 0 false false (doc.drop i3)

/-- `recipe.py` `Ingredient.from_str`, over the line `nm`, its spaCy token
list `doc`, and the WordNet noun classifier `cls` (both external
collaborators).  Returns `none` exactly when no scanned name token
classified as FOOD, mirroring the `if is_food` gate. -/
def fromStr (nm : String) (doc : List Token) (cls : String → List NounType) :
    Option IngredientV :=
  -- quantity scan: break at the first token whose text parses to Fraction()
  let q := firstSuch doc (fun t => decide (strToFraction t.text = 0)) 0
  let i1 : ℕ := match q with | none => 0 | some ind => ind
  let idx1 : ℕ := match q with
    | none => 0
    | some ind => ((doc.get? ind).getD default).idx
  let qty : Option ℚ := match q with
    | none => none
    | some ind =>
      some (strToFraction (pyStrip (pySlice nm 0 (((doc.get? ind).getD default).idx))))
  -- unit scan
  let u := unitScan doc i1
  let hasUnit : Bool := match u with
    | none => false
    | some ind => decide (NounType.MEASURE ∈ cls (((doc.get? ind).getD default).text))
  let i2 : ℕ := match u with
    | none => i1
    | some ind => if hasUnit then ind + 1 else i1
  let idx2 : ℕ := match u with
    | none => idx1
    | some ind => if hasUnit then ((doc.get? (ind + 1)).getD default).idx else idx1
  let unit : Option String := match u with
    | none => none
    | some ind =>
      if hasUnit then some (pyStrip (pySlice nm idx1 (((doc.get? (ind + 1)).getD default).idx)))
      else none
  -- descriptors scan: break at the first NOUN/PROPN token
  let d := firstSuch doc (fun t => t.pos = "NOUN" || t.pos = "PROPN") i2
  let i3 : ℕ := match d with | none => i2 | some ind => ind
  let idx3 : ℕ := match d with
    | none => idx2
    | some ind => ((doc.get? ind).getD default).idx
  let desc : String := match d with
    | none => ""
    | some ind => pyStrip (pySlice nm idx2 (((doc.get? ind).getD default).idx))
  -- name / food scan
  let out := nameScan doc cls nm idx3 i3
  let prep : String :=
    if out.iOut < doc.length then pyStripChars nameStripSet (sliceFrom nm out.idxOut)
    else ""
  if out.isFood then
    some ⟨out.nameOut, qty, unit, desc, prep, ∅⟩
  else none

/-- `main.py:271`: `recipe.ingredients = [Ingredient.from_str(ingr) for ingr
in jsondata.get("recipeIngredient", [])]` — the comprehension keeps every
result, including the `None` ones.  `nlpF` supplies each line's spaCy
tokens. -/
def recipeIngredients (nlpF : String → List Token) (cls : String → List NounType)
    (lines : List String) : List (Option IngredientV) :=
  lines.map (fun l => fromStr l (nlpF l) cls)

/-- spaCy tokenization restricted to the empty string: an empty document has
no tokens (used only as the collaborator stub for the `""` input). -/
def nlpEmpty : String → List Token := fun _ => []

/-- A classifier with no matching word senses: every word gets the empty
category set (the spec's "classifier-miss" case). -/
def clsNone : String → List NounType := fun _ => []

/-! ## Ingredient matcher (`main.py`: `match_score`, `find_ingredient`) -/

/-- `main.py` `match_score`, translated branch for branch.  The Python
float division `score / (max(len(words1), len(words2)) + 1)` is embedded as
exact rational division. -/
def matchScore (name1 name2 : String) : ℚ :=
  if name1 = "" ∨ name2 = "" then 0
  else
    let words1 := wsSplit (pyLower name1).data
    let words2 := wsSplit (pyLower name2).data
    if name1 = name2 then 2
    else if isSubstr name1.data name2.data || isSubstr name2.data name1.data then 1
    else
      ((words1.filter (fun w => decide (w ∈ words2))).length : ℚ) /
        ((max words1.length words2.length : ℕ) + 1)

/-- `' '.join([ingr.descriptors, ingr.name])` as `find_ingredient` builds its
comparison labels. -/
def joinDescName (i : IngredientV) : String := i.descriptors ++ " " ++ i.name

/-- The loop of `find_ingredient`: `maxScore` is the local `max_score`
variable — the source initializes it to `1/2` and never reassigns it, so it
is threaded through unchanged; `acc` is the `ingredients` list. -/
def findLoop (c : String) (maxScore : ℚ) (i : ℕ) (acc : List ℕ) :
    List (Option IngredientV) → List ℕ
  | [] => acc
  | none :: rest => findLoop c maxScore (i + 1) acc rest
  | some r :: rest =>
    let s := matchScore c (joinDescName r)
    if maxScore < s then findLoop c maxScore (i + 1) [i] rest
    else if s = maxScore then findLoop c maxScore (i + 1) (acc ++ [i]) rest
    else findLoop c maxScore (i + 1) acc rest

/-- `main.py` `find_ingredient`: `-1` for a `None` argument, else run the
loop over the recipe's ingredient list and return the head of the collected
index list, `-1` when it is empty. -/
def findIngredient (ingr : Option IngredientV) (ringrs : List (Option IngredientV)) : ℤ :=
  match ingr with
  | none => -1
  | some g =>
    match findLoop (joinDescName g) (1 / 2) 0 [] ringrs with
    | [] => -1
    | j :: _ => j

/-- Indices (from `i`) of the non-`None` entries paired with their match
scores against a candidate label `c`. -/
def scoredList (c : String) (i : ℕ) : List (Option IngredientV) → List (ℕ × ℚ)
  | [] => []
  | none :: rest => scoredList c (i + 1) rest
  | some r :: rest => (i, matchScore c (joinDescName r)) :: scoredList c (i + 1) rest

/-- Indices (from `i`) of the non-`None` entries whose score against `c` is
strictly above 1/2, in traversal order. -/
def idxAbove (c : String) (i : ℕ) : List (Option IngredientV) → List ℕ
  | [] => []
  | none :: rest => idxAbove c (i + 1) rest
  | some r :: rest =>
    if (1 : ℚ) / 2 < matchScore c (joinDescName r) then i :: idxAbove c (i + 1) rest
    else idxAbove c (i + 1) rest

/-- Indices (from `i`) of the non-`None` entries whose score against `c` is
exactly 1/2, in traversal order. -/
def idxEq (c : String) (i : ℕ) : List (Option IngredientV) → List ℕ
  | [] => []
  | none :: rest => idxEq c (i + 1) rest
  | some r :: rest =>
    if matchScore c (joinDescName r) = (1 : ℚ) / 2 then i :: idxEq c (i + 1) rest
    else idxEq c (i + 1) rest

/-- `find_ingredient` as the specification sentence describes it: the
first-encountered index among the entries achieving the strict maximum
score, provided that maximum exceeds 1/2; otherwise `-1`. -/
def findIngredientSpec (ingr : Option IngredientV) (ringrs : List (Option IngredientV)) : ℤ :=
  match ingr with
  | none => -1
  | some g =>
    let scored := scoredList (joinDescName g) 0 ringrs
    let m := (scored.map Prod.snd).foldl max 0
    if (1 : ℚ) / 2 < m then
      match scored.find? (fun p => decide (p.2 = m)) with
      | some p => (p.1 : ℤ)
      | none => -1
    else -1

/-! ## Step/ingredient cross-referencing (`main.py`:
`update_methods_and_ingredients`) -/

/-- Attribute lookup on Python's built-in `set` type for the mutators this
code could call: `set` provides `add`; it has no `append` (that is a `list`
method), so looking `append` up raises `AttributeError`.  `recipe.py:27`
declares `Ingredient.used` as `set[tuple[int, int]]`. -/
def pySetAttr (method : String) : Option (Finset (ℕ × ℕ) → ℕ × ℕ → Finset (ℕ × ℕ)) :=
  if method = "add" then some (fun s p => insert p s) else none

/-- Calling `used.<method>(arg)`: `Except.error` models the uncaught
`AttributeError` for a method `set` does not have. -/
def pySetCall (method : String) (s : Finset (ℕ × ℕ)) (arg : ℕ × ℕ) :
    Except String (Finset (ℕ × ℕ)) :=
  match pySetAttr method with
  | some f => .ok (f s arg)
  | none => .error ("AttributeError: 'set' object has no attribute '" ++ method ++ "'")

/-- The ingredient cross-referencing pass of `update_methods_and_ingredients`
for one step: `ringrs` is `recipe.ingredients`, `i` the step index, and
`chunks` the results of `Ingredient.from_str` on the step's article-stripped
noun chunks (spaCy noun chunking is an external collaborator, so the parsed
chunks are passed in).  For every chunk that resolves to a recipe
ingredient, the source executes
`recipe.ingredients[ingr_ind].used.append((i, len(step.ingredients)))` and
then `step.ingredients.append(ingr)`. -/
def crossRefStep (i : ℕ) (chunks : List (Option IngredientV))
    (st : List (Option IngredientV) × List IngredientV) :
    Except String (List (Option IngredientV) × List IngredientV) :=
  match chunks with
  | [] => .ok st
  | chunk :: rest =>
    let ind := findIngredient chunk st.1
    if (-1 : ℤ) < ind then
      match st.1.get? ind.toNat, chunk with
      | some (some r), some g => do
        let used2 ← pySetCall "append" r.used (i, st.2.length)
        let ringrs2 := st.1.set ind.toNat (some { r with used := used2 })
        crossRefStep i rest (ringrs2, st.2 ++ [g])
      | _, _ => crossRefStep i rest st
    else crossRefStep i rest st

/-! ## Transformation engine (`main.py`: substitution tables,
`get_substitutions`, `handle_transformation`) -/

/-- `util.py` `Transformation` — note there is no `LACTOSE_FREE` member. -/
inductive Transformation where
  | TO_VEGETARIAN | FROM_VEGETARIAN | TO_HEALTHY | FROM_HEALTHY
  | DOUBLE | HALF | TO_ITALIAN | TO_MEXICAN | GLUTEN_FREE
deriving DecidableEq, Repr

/-- `main.py` `VEGETARIAN_SUBSTITUTIONS`, in dict insertion order. -/
def VEGETARIAN_SUBSTITUTIONS : List (String × String) :=
  [("chicken broth", "vegetable broth"), ("chicken", "extra-firm tofu, cubed"),
   ("sausage", "plant-based sausage"), ("beef", "mushrooms"), ("pork", "tempeh"),
   ("fish", "cauliflower steak"), ("gelatin", "agar-agar"), ("bacon", "coconut bacon"),
   ("meatballs", "lentil balls"), ("shrimp", "jackfruit"), ("mussels", "mushrooms"),
   ("squid", "king oyster mushroom"), ("bone", ""), ("breast", ""), ("thigh", ""),
   ("drumstick", ""), ("wing", ""), ("rib", ""), ("cutlet", "")]

/-- `main.py` `NON_VEGETARIAN_SUBSTITUTIONS`. -/
def NON_VEGETARIAN_SUBSTITUTIONS : List (String × String) :=
  [("vegetable broth", "chicken broth"), ("tofu", "chicken"), ("black beans", "beef"),
   ("kidney beans", "pork"), ("zucchini slices", "fish"), ("agar", "gelatin"),
   ("tempeh", "bacon"), ("chickpeas", "shrimp"), ("plant-based", ""),
   ("vegetarian", ""), ("portobello mushrooms", "steak"), ("crumbled tofu", "ground beef")]

/-- `main.py` `HEALTHY_SUBSTITUTIONS`. -/
def HEALTHY_SUBSTITUTIONS : List (String × String) :=
  [("butter", "applesauce"), ("sugar", "honey"), ("heavy cream", "Greek yogurt"),
   ("salt", "herbs"), ("bacon", "turkey bacon"), ("beef", "lean turkey"),
   ("frying", "baking")]

/-- `main.py` `UNHEALTHY_SUBSTITUTIONS`. -/
def UNHEALTHY_SUBSTITUTIONS : List (String × String) :=
  [("applesauce", "butter"), ("honey", "sugar"), ("Greek yogurt", "heavy cream"),
   ("herbs", "salt"), ("turkey bacon", "bacon"), ("lean turkey", "beef"),
   ("baking", "frying")]

/-- `main.py` `ITALIAN_SUBSTITUTIONS`. -/
def ITALIAN_SUBSTITUTIONS : List (String × String) :=
  [("rice", "risotto"), ("bread", "ciabatta"), ("tomatoes", "San Marzano tomatoes"),
   ("onions", "shallots"), ("vegetable oil", "olive oil"), ("chicken", "prosciutto"),
   ("ground beef", "Italian sausage"), ("cheddar cheese", "parmesan cheese"),
   ("cream", "mascarpone cheese"), ("butter", "extra virgin olive oil"),
   ("corn", "zucchini"), ("herbs", "basil"), ("potatoes", "polenta"),
   ("spices", "Italian seasoning"), ("stock", "chicken stock with white wine"),
   ("pasta", "spaghetti")]

/-- `main.py` `MEXICAN_SUBSTITUTIONS`. -/
def MEXICAN_SUBSTITUTIONS : List (String × String) :=
  [("rice", "Mexican rice"), ("bread", "corn tortillas"),
   ("tomatoes", "fire-roasted tomatoes"), ("onions", "white onions"),
   ("vegetable oil", "lard"), ("chicken", "shredded chicken"),
   ("ground beef", "chorizo"), ("cheddar cheese", "queso fresco"),
   ("cream", "crema"), ("butter", "avocado oil"), ("zucchini", "corn"),
   ("herbs", "cilantro"), ("potatoes", "sweet potatoes"),
   ("spices", "chili powder and cumin"), ("stock", "chicken stock with lime"),
   ("pasta", "tortilla strips")]

/-- `main.py` `GLUTEN_FREE_SUBSTITUTIONS`. -/
def GLUTEN_FREE_SUBSTITUTIONS : List (String × String) :=
  [("flour", "gluten-free flour"), ("whole wheat flour", "almond flour"),
   ("all-purpose flour", "coconut flour"), ("semolina", "cornmeal"),
   ("spelt", "sorghum flour"), ("bulgur", "quinoa"), ("couscous", "quinoa"),
   ("farro", "millet"), ("barley", "brown rice"), ("rye", "oats"),
   ("kamut", "teff"), ("bread", "gluten-free bread"), ("bagels", "gluten-free bagels"),
   ("crackers", "rice crackers"), ("croissants", "gluten-free croissants"),
   ("pizza crust", "cauliflower crust"), ("muffins", "gluten-free muffins"),
   ("pancakes", "gluten-free pancakes"), ("waffles", "gluten-free waffles"),
   ("pasta", "gluten-free pasta"), ("spaghetti", "rice noodles"),
   ("lasagna sheets", "zucchini slices"), ("beer", "gluten-free beer"),
   ("ale", "cider"), ("breadcrumbs", "gluten-free breadcrumbs"),
   ("croutons", "gluten-free croutons"),
   ("graham crackers", "gluten-free graham crackers"),
   ("cookies", "gluten-free cookies"), ("cakes", "gluten-free cakes"),
   ("donuts", "gluten-free donuts"), ("cereal", "gluten-free cereal"),
   ("granola", "gluten-free granola"), ("oatmeal", "certified gluten-free oats")]

/-- `main.py` `LACTOSE_FREE_SUBSTITUTIONS` (the table exists even though the
enum member `get_substitutions` would key it on does not). -/
def LACTOSE_FREE_SUBSTITUTIONS : List (String × String) :=
  [("milk", "almond milk"),
   ("whole milk", "coconut milk (canned or carton, depending on richness needed)"),
   ("skim milk", "rice milk"), ("buttermilk", "almond milk"),
   ("cream", "coconut cream"),
   ("whipping cream", "silken tofu blended with almond milk"),
   ("half-and-half", "oat milk creamer"), ("sour cream", "dairy-free sour cream"),
   ("yogurt", "coconut yogurt or almond yogurt"), ("butter", "vegan butter"),
   ("ghee", "lactose-free ghee or clarified butter"), ("cheese", "dairy-free cheese"),
   ("cream cheese", "dairy-free cream cheese"),
   ("cheddar cheese", "vegan cheddar cheese"),
   ("parmesan cheese", "nutritional yeast or vegan parmesan"),
   ("mozzarella cheese", "plant-based mozzarella cheese"),
   ("ricotta cheese", "tofu ricotta or cashew ricotta"),
   ("feta cheese", "crumbled tofu with lemon and herbs"),
   ("blue cheese", "vegan blue cheese or omit for a simpler flavor"),
   ("ice cream", "dairy-free ice cream"), ("whipped cream", "coconut whipped cream"),
   ("custard", "coconut milk custard"),
   ("pudding", "avocado or silken tofu-based pudding"),
   ("chocolate", "dairy-free dark chocolate"),
   ("milkshake", "smoothie with dairy-free milk"),
   ("coffee creamer", "almond creamer")]

/-- The members `util.py`'s `Transformation` enum actually defines, by name.
`LACTOSE_FREE` is not among them. -/
def transformationMembers : List (String × Transformation) :=
  [("TO_VEGETARIAN", .TO_VEGETARIAN), ("FROM_VEGETARIAN", .FROM_VEGETARIAN),
   ("TO_HEALTHY", .TO_HEALTHY), ("FROM_HEALTHY", .FROM_HEALTHY),
   ("DOUBLE", .DOUBLE), ("HALF", .HALF), ("TO_ITALIAN", .TO_ITALIAN),
   ("TO_MEXICAN", .TO_MEXICAN), ("GLUTEN_FREE", .GLUTEN_FREE)]

/-- `main.py` `get_substitutions`, with Python `match` semantics: value
patterns are attribute lookups evaluated case by case in order, so after the
seven cases naming existing members fail, reaching
`case Transformation.LACTOSE_FREE:` evaluates an attribute that does not
exist and raises `AttributeError` (`Except.error`) — the `case _` fallback
returning `{}` sits below it and is therefore unreachable. -/
def get_substitutions (t : Transformation) : Except String (List (String × String)) :=
  if t = .TO_VEGETARIAN then .ok VEGETARIAN_SUBSTITUTIONS
  else if t = .FROM_VEGETARIAN then .ok NON_VEGETARIAN_SUBSTITUTIONS
  else if t = .TO_HEALTHY then .ok HEALTHY_SUBSTITUTIONS
  else if t = .FROM_HEALTHY then .ok UNHEALTHY_SUBSTITUTIONS
  else if t = .TO_ITALIAN then .ok ITALIAN_SUBSTITUTIONS
  else if t = .TO_MEXICAN then .ok MEXICAN_SUBSTITUTIONS
  else if t = .GLUTEN_FREE then .ok GLUTEN_FREE_SUBSTITUTIONS
  else
    match transformationMembers.lookup "LACTOSE_FREE" with
    | some m => if t = m then .ok LACTOSE_FREE_SUBSTITUTIONS else .ok []
    | none => .error "AttributeError: LACTOSE_FREE"

/-- Stable descending insertion by key length: `x` (which precedes `ys` in
the original table) goes in front of the first entry whose key is not
longer. -/
def insDesc (x : String × String) : List (String × String) → List (String × String)
  | [] => [x]
  | y :: ys => if y.1.length ≤ x.1.length then x :: y :: ys else y :: insDesc x ys

/-- `dict(sorted(substitutions.items(), key=lambda x: len(x[0]),
reverse=True))`: a stable sort of the table by key length, longest first
(Python's `sorted` is stable, so equal-length keys keep insertion order). -/
def sortSubs : List (String × String) → List (String × String)
  | [] => []
  | x :: xs => insDesc x (sortSubs xs)

/-- Does the case-insensitive literal `key` match at the head of `l` as the
regex `\b<key>\b` with `re.IGNORECASE` would, given the character `prev`
preceding this position (`none` at the string start)?  A `\b` holds where
word-ness changes (start/end of string count as non-word). -/
def wbMatchAt (key : List Char) (prev : Option Char) (l : List Char) : Bool :=
  ciStarts key l &&
  (match l.head? with
   | none => false
   | some c =>
     (match prev with | none => false | some p => isWordChar p) ≠ isWordChar c) &&
  (match l.get? (key.length - 1) with
   | none => false
   | some lastc =>
     isWordChar lastc ≠
       (match l.get? key.length with | none => false | some nx => isWordChar nx))

/-- One `re.sub(rf"\b{re.escape(original)}\b", substitute, text,
flags=re.IGNORECASE)` step, with explicit fuel for structural recursion:
scan left to right, replacing non-overlapping whole-word case-insensitive
occurrences of `key`; matching resumes after the matched span of the
original text, so replacement text is not rescanned by this same call.
Every table key is nonempty, so each step consumes at least one input
character and fuel equal to the input length never runs out. -/
def subWBGo (key repl : List Char) : ℕ → Option Char → List Char → List Char
  | 0, _, l => l
  | _ + 1, _, [] => []
  | fuel + 1, prev, c :: rest =>
    if wbMatchAt key prev (c :: rest) then
      repl ++ subWBGo key repl fuel ((c :: rest).get? (key.length - 1)) ((c :: rest).drop key.length)
    else c :: subWBGo key repl fuel (some c) rest

/-- The whole-word case-insensitive `re.sub` of one table entry. -/
def subWB (key repl : List Char) (l : List Char) : List Char :=
  subWBGo key repl l.length none l

/-- The `substitute_text` closure inside the active `handle_transformation`
(`main.py:534`): fold the sorted substitution entries over the text, one
whole-word case-insensitive `re.sub` per entry.  It performs no
orphaned-qualifier stripping, no trailing-conjunction trimming and no
whitespace collapsing (those exist only in a commented-out variant). -/
def substituteText (subs : List (String × String)) (text : String) : String :=
  subs.foldl (fun t kv => ⟨subWB kv.1.data kv.2.data t.data⟩) text

/-- Python `str(trans.name).capitalize()` values used in the rewritten title
(`capitalize` upcases the first letter and downcases the rest). -/
def transName : Transformation → String
  | .TO_VEGETARIAN => "To_vegetarian"
  | .FROM_VEGETARIAN => "From_vegetarian"
  | .TO_HEALTHY => "To_healthy"
  | .FROM_HEALTHY => "From_healthy"
  | .DOUBLE => "Double"
  | .HALF => "Half"
  | .TO_ITALIAN => "To_italian"
  | .TO_MEXICAN => "To_mexican"
  | .GLUTEN_FREE => "Gluten_free"

/-! ## Heap model for `handle_transformation`

Python assignment copies object references, `deepcopy` allocates fresh
objects.  To express copying versus aliasing, mutable container objects live
in a small heap addressed by allocation order; a `Recipe`'s container fields
hold addresses.  `deepcopy` allocates a fresh address; plain `=` assignment
copies the address. -/

/-- A heap object: one of the container values a recipe field can refer
to. -/
inductive Obj where
  | ingrs (l : List (Option IngredientV))
  | steps (l : List StepV)
  | strset (s : List String)
  | strmap (m : List (String × String))
deriving DecidableEq

/-- The heap: `objs.length` is the next fresh address. -/
structure Heap where
  objs : List Obj
deriving DecidableEq

/-- Allocate a fresh object, returning the new heap and its address. -/
def alloc (h : Heap) (o : Obj) : Heap × ℕ := (⟨h.objs ++ [o]⟩, h.objs.length)

/-- Read an ingredient list from the heap (defaults to `[]` off-heap; the
program only reads addresses it has written). -/
def getIngrs (h : Heap) (a : ℕ) : List (Option IngredientV) :=
  match h.objs.get? a with
  | some (.ingrs l) => l
  | _ => []

/-- Read a step list from the heap. -/
def getSteps (h : Heap) (a : ℕ) : List StepV :=
  match h.objs.get? a with
  | some (.steps l) => l
  | _ => []

/-- `recipe.py` `Recipe` at the reference level: the scalar `title` by
value, the five container fields as heap addresses. -/
structure PyRecipe where
  title : String
  ingredients : ℕ
  steps : ℕ
  tools : ℕ
  methods : ℕ
  other : ℕ
deriving DecidableEq

/-- The exact rational factor `quantity_change` ends up multiplying by:
`2` for DOUBLE; for HALF the literal `0.5` (a float, exactly representable)
is converted by `Fraction(0.5).limit_denominator()` to exactly `1/2` before
the multiplication, so no floating approximation is ever multiplied in. -/
def scaleFactor (t : Transformation) : ℚ :=
  if t = .DOUBLE then 2 else 1 / 2

/-- `quantity_change(ingredients, factor)` from `handle_transformation`:
skips `None` entries (`if ingredient`) and absent or zero quantities
(`and ingredient.quantity` — `Fraction(0)` is falsy), multiplying the
rest in place. -/
def quantityChange (l : List (Option IngredientV)) (factor : ℚ) :
    List (Option IngredientV) :=
  l.map (fun oi =>
    match oi with
    | none => none
    | some i =>
      match i.quantity with
      | none => some i
      | some q => if q = 0 then some i else some { i with quantity := some (q * factor) })

/-- The active `handle_transformation` (`main.py:514`), minus its printing
and file-writing plumbing.  Scaling deep-copies the ingredient list, scales
the copy, and deep-copies the steps; substitution builds fresh lists of
rewritten copies, dropping `None` and empty-named ingredients
(`if ingredient and ingredient.name`).  The constructed recipe assigns
`tools`, `methods` and `other` from the source — a reference copy.
`get_substitutions` may raise (propagated as `Except.error`). -/
def handleTransformation (h : Heap) (r : PyRecipe) (t : Transformation) :
    Except String (Heap × PyRecipe) :=
  if t = .DOUBLE ∨ t = .HALF then
    let l := getIngrs h r.ingredients
    let (h1, ia) := alloc h (.ingrs (quantityChange l (scaleFactor t)))
    let (h2, sa) := alloc h1 (.steps (getSteps h r.steps))
    .ok (h2,
      { title := transName t ++ " " ++ r.title, ingredients := ia, steps := sa,
        tools := r.tools, methods := r.methods, other := r.other })
  else do
    let subs ← get_substitutions t
    let sorted := sortSubs subs
    let l := getIngrs h r.ingredients
    let l2 := l.filterMap (fun oi =>
      match oi with
      | some i =>
        if i.name ≠ "" then some (some { i with name := substituteText sorted i.name })
        else none
      | none => none)
    let (h1, ia) := alloc h (.ingrs l2)
    let st := (getSteps h r.steps).map (fun s => { s with text := substituteText sorted s.text })
    let (h2, sa) := alloc h1 (.steps st)
    .ok (h2,
      { title := transName t ++ " " ++ r.title, ingredients := ia, steps := sa,
        tools := r.tools, methods := r.methods, other := r.other })

/-- A small concrete heap for the aliasing example: one recipe whose five
container fields occupy addresses 0–4. -/
def exHeap : Heap :=
  ⟨[.ingrs [some { mkIngr "milk" with quantity := some (1 / 3) }],
    .steps [⟨"Heat the milk.", [], [], [], [], []⟩],
    .strset ["pan"], .strset ["heat"], .strmap [("description", "d")]]⟩

/-- The concrete recipe living in `exHeap`. -/
def exRecipe : PyRecipe :=
  ⟨"Warm Milk", 0, 1, 2, 3, 4⟩

/-- `str_to_fraction` as the original claim sentence describes it: tokenize
the normalized text on whitespace and sum per-token contributions — a token
parsing as a fraction `a/b` with `b > 1` and `a > 10` contributes
`((a mod 10) + (a div 10) * b) / b` with `a div 10` the exact integer floor
division, any other parseable token contributes its value, and an
unparseable token is silently skipped. -/
def strToFractionSpec (s : String) : ℚ :=
  ((wsSplit (pyNorm s).data).map (fun tok =>
    match parseFraction tok with
    | none => 0
    | some q =>
      if 1 < q.den ∧ 10 < q.num then
        (((q.num % 10 : ℤ) : ℚ) + ((q.num / 10 : ℤ) : ℚ) * (q.den : ℚ)) / (q.den : ℚ)
      else q)).sum

/-- `str_to_fraction` as the amended claim describes it: as
`strToFractionSpec`, except that the heuristic's division by 10 is the
float-mediated `int(a / 10)` (`pyIntDivTen`), and a token whose heuristic
overflows the float range is skipped like an unparseable one. -/
def strToFractionFloatSpec (s : String) : ℚ :=
  ((wsSplit (pyNorm s).data).map (fun tok =>
    match parseFraction tok with
    | none => 0
    | some q =>
      if 1 < q.den ∧ 10 < q.num then
        match pyIntDivTen q.num.toNat with
        | .error _ => 0
        | .ok d => (((q.num % 10 : ℤ) : ℚ) + (d : ℚ) * (q.den : ℚ)) / (q.den : ℚ)
      else q)).sum

deriving instance DecidableEq for Except

section MainResults

attribute [local semireducible] Rat.add Rat.mul Rat.sub Rat.inv Rat.ofScientific

/-! ## Helper lemmas -/

theorem digitChar_mem (d : ℕ) : digitChar d ∈ digitList := by
  unfold digitChar
  split <;> decide

theorem digitChar_val (d : ℕ) (h : d < 10) : (digitChar d).toNat - 48 = d := by
  interval_cases d <;> decide

theorem digitsToNat_append (l : List Char) (c : Char) :
    digitsToNat (l ++ [c]) = 10 * digitsToNat l + (c.toNat - 48) := by
  unfold digitsToNat
  rw [List.foldl_append]
  rfl

theorem natToDigitsGo_spec :
    ∀ fuel n, n < fuel →
      digitsToNat (natToDigitsGo fuel n) = n ∧ natToDigitsGo fuel n ≠ [] ∧
        ∀ c ∈ natToDigitsGo fuel n, c ∈ digitList := by
  intro fuel
  induction fuel with
  | zero => omega
  | succ fuel ih =>
    intro n hn
    by_cases h10 : n < 10
    · refine ⟨?_, ?_, ?_⟩
      · simp [natToDigitsGo, h10, digitsToNat, digitChar_val n h10]
      · simp [natToDigitsGo, h10]
      · intro c hc
        simp [natToDigitsGo, h10] at hc
        simpa [hc] using digitChar_mem n
    · have hdivlt : n / 10 < fuel := by
        have := Nat.div_lt_self (by omega : 0 < n) (by omega : 1 < 10)
        omega
      obtain ⟨ihv, -, ihmem⟩ := ih (n / 10) hdivlt
      refine ⟨?_, ?_, ?_⟩
      · simp only [natToDigitsGo, if_neg h10]
        rw [digitsToNat_append, ihv, digitChar_val (n % 10) (by omega)]
        omega
      · simp [natToDigitsGo, h10]
      · intro c hc
        simp only [natToDigitsGo, if_neg h10, List.mem_append, List.mem_singleton] at hc
        rcases hc with hc | hc
        · exact ihmem c hc
        · simpa [hc] using digitChar_mem (n % 10)

theorem natToDigits_val (n : ℕ) : digitsToNat (natToDigits n) = n :=
  (natToDigitsGo_spec (n + 1) n (by omega)).1

theorem natToDigits_ne_nil (n : ℕ) : natToDigits n ≠ [] :=
  (natToDigitsGo_spec (n + 1) n (by omega)).2.1

theorem natToDigits_mem (n : ℕ) : ∀ c ∈ natToDigits n, c ∈ digitList :=
  (natToDigitsGo_spec (n + 1) n (by omega)).2.2

theorem mem_digitList_isDigit {c : Char} (h : c ∈ digitList) : c.isDigit = true := by
  fin_cases h <;> decide

theorem mem_digitList_not_space {c : Char} (h : c ∈ digitList) : pyIsSpace c = false := by
  fin_cases h <;> decide

theorem mem_digitList_nfkd {c : Char} (h : c ∈ digitList) :
    nfkdChar c = [c] ∧ (if c = '⁄' then '/' else c) = c := by
  fin_cases h <;> exact ⟨by decide, by decide⟩

theorem mem_digitList_no_sign {c : Char} (h : c ∈ digitList) : c ≠ '+' ∧ c ≠ '-' := by
  fin_cases h <;> exact ⟨by decide, by decide⟩

theorem takeWhile_all {p : Char → Bool} :
    ∀ l : List Char, (∀ c ∈ l, p c = true) → l.takeWhile p = l ∧ l.dropWhile p = [] := by
  intro l h
  induction l with
  | nil => exact ⟨rfl, rfl⟩
  | cons c r ih =>
    have hc : p c = true := h c (by simp)
    have ihr := ih (fun x hx => h x (by simp [hx]))
    simp [List.takeWhile, List.dropWhile, hc, ihr.1, ihr.2]

theorem wsSplitAux_nows :
    ∀ (l cur : List Char), (∀ c ∈ l, pyIsSpace c = false) →
      wsSplitAux cur l = if cur = [] ∧ l = [] then [] else [cur.reverse ++ l] := by
  intro l
  induction l with
  | nil =>
    intro cur _
    by_cases hcur : cur = [] <;> simp [wsSplitAux, hcur]
  | cons c r ih =>
    intro cur h
    have hc : pyIsSpace c = false := h c (by simp)
    have ihr := ih (c :: cur) (fun x hx => h x (by simp [hx]))
    simp only [wsSplitAux, hc, Bool.false_eq_true, if_false, ihr]
    simp

theorem pyNorm_of_id (l : List Char)
    (h : ∀ c ∈ l, nfkdChar c = [c] ∧ (if c = '⁄' then '/' else c) = c) :
    pyNorm ⟨l⟩ = ⟨l⟩ := by
  unfold pyNorm
  congr 1
  induction l with
  | nil => rfl
  | cons c r ih =>
    have hc := h c (by simp)
    have ihr := ih (fun x hx => h x (by simp [hx]))
    simp only [List.map_cons, List.flatten_cons, hc.1, List.singleton_append,
      List.map_cons, ihr, hc.2]

theorem parseFraction_digits (l : List Char) (hne : l ≠ [])
    (hd : ∀ c ∈ l, c ∈ digitList) :
    parseFraction l = some ((digitsToNat l : ℕ) : ℚ) := by
  obtain ⟨c, r, rfl⟩ := List.exists_cons_of_ne_nil hne
  have hsign := mem_digitList_no_sign (hd c (by simp))
  have hread : readNeg (c :: r) = (false, c :: r) := by
    simp [readNeg, hsign.1, hsign.2]
  have hdig : ∀ x ∈ c :: r, Char.isDigit x = true :=
    fun x hx => mem_digitList_isDigit (hd x hx)
  have htake := takeWhile_all (c :: r) hdig
  unfold parseFraction
  rw [hread]
  simp only [htake.1, htake.2]
  simp [Rat.mkRat_one]

theorem foldl_add_sum (f : List Char → ℚ) :
    ∀ (toks : List (List Char)) (acc : ℚ),
      toks.foldl (fun s t => s + f t) acc = acc + (toks.map f).sum := by
  intro toks
  induction toks with
  | nil => intro acc; simp
  | cons t r ih => intro acc; simp [ih, add_assoc]

theorem strToFraction_eq_fold (s : String) :
    strToFraction s = ((wsSplit (pyNorm s).data).map (fun tok =>
      match parseFraction tok with
      | none => (0 : ℚ)
      | some q =>
        match fracHeur q with
        | .error _ => (0 : ℚ)
        | .ok v => v)).sum := by
  unfold strToFraction
  have hfun : (fun (sum : ℚ) tok =>
      match parseFraction tok with
      | none => sum
      | some f =>
        match fracHeur f with
        | .error _ => sum
        | .ok f2 => sum + f2) =
      (fun (sum : ℚ) tok => sum + (match parseFraction tok with
        | none => (0 : ℚ)
        | some q =>
          match fracHeur q with
          | .error _ => (0 : ℚ)
          | .ok v => v)) := by
    funext sum tok
    cases parseFraction tok with
    | none => simp
    | some f => cases h : fracHeur f <;> simp [h]
  rw [hfun, foldl_add_sum]
  simp

theorem fracHeur_eq_floatSpec (q : ℚ) :
    (match fracHeur q with | .error _ => (0 : ℚ) | .ok v => v) =
      (if 1 < q.den ∧ 10 < q.num then
        match pyIntDivTen q.num.toNat with
        | .error _ => (0 : ℚ)
        | .ok d => (((q.num % 10 : ℤ) : ℚ) + (d : ℚ) * (q.den : ℚ)) / (q.den : ℚ)
      else q) := by
  unfold fracHeur
  by_cases h : 1 < q.den ∧ 10 < q.num
  · simp only [if_pos h]
    cases pyIntDivTen q.num.toNat with
    | error e => rfl
    | ok d =>
      show mkRat (q.num % 10 + (d : ℤ) * (q.den : ℤ)) q.den = _
      rw [Rat.mkRat_eq_div]
      push_cast
      ring
  · simp only [if_neg h]

theorem strToFraction_natToStr (n : ℕ) : strToFraction (natToStr n) = (n : ℚ) := by
  have hmem := natToDigits_mem n
  have hnorm : pyNorm (natToStr n) = natToStr n :=
    pyNorm_of_id _ (fun c hc => mem_digitList_nfkd (hmem c hc))
  have hsplit : wsSplit (natToStr n).data = [natToDigits n] := by
    show wsSplitAux [] (natToDigits n) = [natToDigits n]
    rw [wsSplitAux_nows _ [] (fun c hc => mem_digitList_not_space (hmem c hc))]
    simp [natToDigits_ne_nil n]
  rw [strToFraction_eq_fold, hnorm, hsplit]
  rw [List.map_singleton, parseFraction_digits _ (natToDigits_ne_nil n) hmem]
  simp [natToDigits_val, fracHeur, Rat.den_natCast]

theorem fractionToStr_natCast (n : ℕ) : fractionToStr ((n : ℕ) : ℚ) = natToStr n := by
  unfold fractionToStr
  simp only [Rat.den_natCast, Rat.num_natCast, if_true]
  unfold intToStr
  have : ¬ ((n : ℤ) < 0) := by omega
  simp [this]

/-! ## Claims C6 and C7: the quantity parser -/

theorem log2go_le : ∀ (fuel m k : ℕ), m < 2 ^ (k + 1) → log2go fuel m ≤ k := by
  intro fuel
  induction fuel with
  | zero => intro m k _; exact Nat.zero_le k
  | succ fuel ih =>
    intro m k hm
    unfold log2go
    by_cases h1 : m ≤ 1
    · simp [h1]
    · rw [if_neg h1]
      have hpk : (2:ℕ) ^ (k + 1) = 2 * 2 ^ k := by ring
      have hk : 1 ≤ k := by
        by_contra hk0
        have hk0 : k = 0 := by omega
        subst hk0
        simp at hpk
        omega
      have hm2 : m / 2 < 2 ^ (k - 1 + 1) := by
        have he : k - 1 + 1 = k := by omega
        rw [he]
        omega
      have := ih (m / 2) (k - 1) hm2
      omega

theorem rhe_cases (num den : ℕ) :
    rhe num den = num / den ∨ rhe num den = num / den + 1 := by
  simp only [rhe]
  split_ifs <;> simp

theorem div_mul_add_lt (P k t : ℕ) (hP : 0 < P) (ht : t < P) :
    (k * P + t) / P = k := by
  rw [Nat.mul_comm, Nat.mul_add_div hP, Nat.div_eq_of_lt ht]
  omega

theorem rhe_mul_pow_div (a P : ℕ) (hP : 16 ≤ P) :
    rhe (a * P) 10 / P = a / 10 := by
  have har : a = 10 * (a / 10) + a % 10 := (Nat.div_add_mod a 10).symm
  have hrlt : a % 10 < 10 := Nat.mod_lt a (by omega)
  have hq : a * P / 10 = a / 10 * P + a % 10 * P / 10 := by
    conv_lhs => rw [har]
    rw [show (10 * (a / 10) + a % 10) * P = 10 * (a / 10 * P) + a % 10 * P from by ring]
    rw [Nat.mul_add_div (by omega : 0 < 10)]
  have htP : a % 10 * P / 10 + 1 < P := by
    have h1 : a % 10 * P / 10 ≤ 9 * P / 10 :=
      Nat.div_le_div_right (Nat.mul_le_mul_right P (by omega))
    have h2 : 9 * P / 10 < P - 1 := by
      rw [Nat.div_lt_iff_lt_mul (by omega : (0:ℕ) < 10)]
      omega
    omega
  rcases rhe_cases (a * P) 10 with h | h <;> rw [h, hq]
  · exact div_mul_add_lt P (a / 10) (a % 10 * P / 10) (by omega) (by omega)
  · rw [Nat.add_assoc]
    exact div_mul_add_lt P (a / 10) (a % 10 * P / 10 + 1) (by omega) (by omega)

theorem pyIntDivTen_small (a : ℕ) (ha : 10 < a) (hb : a < 2 ^ 52) :
    pyIntDivTen a = .ok (a / 10) := by
  have h52 : (2:ℕ) ^ 52 = 4503599627370496 := by norm_num
  have h49 : (2:ℕ) ^ 49 = 562949953421312 := by norm_num
  have hdiv : a / 10 < 2 ^ (48 + 1) := by
    have : a / 10 < 2 ^ 49 := by
      rw [Nat.div_lt_iff_lt_mul (by omega : (0:ℕ) < 10)]
      omega
    simpa using this
  have hlog : natLog2 (a / 10) ≤ 48 := log2go_le _ _ _ hdiv
  simp only [pyIntDivTen]
  rw [if_neg (by omega : ¬ 52 ≤ natLog2 (a / 10))]
  have hs : 4 ≤ 52 - natLog2 (a / 10) := by omega
  have hP : 16 ≤ 2 ^ (52 - natLog2 (a / 10)) := by
    calc (16:ℕ) = 2 ^ 4 := by norm_num
    _ ≤ 2 ^ (52 - natLog2 (a / 10)) := Nat.pow_le_pow_right (by omega) hs
  rw [rhe_mul_pow_div a _ hP]

theorem fracHeur_small (q : ℚ) (hden : 1 < q.den) (hnum : 10 < q.num)
    (hlt : q.num < 2 ^ 52) :
    fracHeur q = .ok (mkRat (q.num % 10 + q.num / 10 * (q.den : ℤ)) q.den) := by
  unfold fracHeur
  rw [if_pos ⟨hden, hnum⟩]
  have h52 : (2:ℤ) ^ 52 = 4503599627370496 := by norm_num
  have h52n : (2:ℕ) ^ 52 = 4503599627370496 := by norm_num
  have h10 : 10 < q.num.toNat := by omega
  have hsm : q.num.toNat < 2 ^ 52 := by omega
  rw [pyIntDivTen_small q.num.toNat h10 hsm]
  have hcast : ((q.num.toNat / 10 : ℕ) : ℤ) = q.num / 10 := by
    rw [Int.natCast_div, Int.toNat_of_nonneg (by omega : (0:ℤ) ≤ q.num)]
    norm_num
  show Except.ok (mkRat (q.num % 10 + ((q.num.toNat / 10 : ℕ) : ℤ) * (q.den : ℤ)) q.den) = _
  rw [hcast]

/-- C6 (amended): `parse_quantity` tokenizes its input on whitespace and
sums per-token contributions: a token parsing as a fraction `a/b` with
`b > 1` and `a > 10` contributes `((a mod 10) + T(a) * b) / b` where `T(a)`
is the float-mediated `int(a / 10)` — equal to the exact floor `a div 10`
whenever `a < 2^52` (so `"21/2"` contributes `5/2`), but possibly one or
more above it for larger numerators, and a swallowed `OverflowError`
(skipping the token) when the quotient exceeds the double range; every
unparseable token is silently skipped without error. -/
theorem C6_str_to_fraction_float_div :
    (∀ s : String, strToFraction s = strToFractionFloatSpec s) ∧
    (∀ q : ℚ, 1 < q.den → 10 < q.num → q.num < 2 ^ 52 →
        fracHeur q = .ok (mkRat (q.num % 10 + q.num / 10 * (q.den : ℤ)) q.den)) ∧
    strToFraction "21/2" = 5 / 2 := by
  refine ⟨?_, fracHeur_small, by decide⟩
  intro s
  rw [strToFraction_eq_fold]
  unfold strToFractionFloatSpec
  have hfun : (fun (tok : List Char) =>
      match parseFraction tok with
      | none => (0 : ℚ)
      | some q =>
        match fracHeur q with
        | .error _ => (0 : ℚ)
        | .ok v => v) =
      (fun (tok : List Char) =>
        match parseFraction tok with
        | none => (0 : ℚ)
        | some q =>
          if 1 < q.den ∧ 10 < q.num then
            match pyIntDivTen q.num.toNat with
            | .error _ => (0 : ℚ)
            | .ok d => (((q.num % 10 : ℤ) : ℚ) + (d : ℚ) * (q.den : ℚ)) / (q.den : ℚ)
          else q) := by
    funext tok
    cases parseFraction tok with
    | none => rfl
    | some q => exact fracHeur_eq_floatSpec q
  rw [hfun]

/-- C6 (witness): the amended theorem applied at a concrete string and at
the concrete parsed fraction `21/2`, whose numerator 21 is below `2^52`, so
the heuristic contributes the exact `(21 mod 10 + (21 div 10) * 2) / 2 =
5/2`. -/
theorem C6_str_to_fraction_float_div_witness :
    strToFraction "2 1/2" = strToFractionFloatSpec "2 1/2" ∧
    fracHeur (21 / 2 : ℚ) =
      .ok (mkRat ((21 / 2 : ℚ).num % 10 +
        (21 / 2 : ℚ).num / 10 * (((21 / 2 : ℚ).den : ℤ))) (21 / 2 : ℚ).den) :=
  ⟨C6_str_to_fraction_float_div.1 "2 1/2",
   C6_str_to_fraction_float_div.2.1 (21 / 2 : ℚ) (by decide) (by decide) (by norm_num)⟩

/-- C6 (counterexample): on the ASCII token `"99999999999999999/7"` the
program's float-mediated `int(99999999999999999 / 10)` is `10^16` — one
above the floor `9999999999999999` that the claim's `a div 10` prescribes —
so `str_to_fraction` returns `70000000000000009/7` where the claim's
formula requires `70000000000000002/7`. -/
theorem C6_counterexample :
    strToFraction "99999999999999999/7" = 70000000000000009 / 7 ∧
    strToFractionSpec "99999999999999999/7" = 70000000000000002 / 7 ∧
    strToFraction "99999999999999999/7" ≠ strToFractionSpec "99999999999999999/7" := by
  refine ⟨by decide, by decide, by decide⟩

/-- C7: for every integer `n ≥ 0` (every natural number),
`format_quantity(parse_quantity(str(n)))` is `str(n)` again; and
`parse_quantity("1 1/2")` is the exact rational `3/2`, which
`format_quantity` renders back as `"1 1/2"`. -/
theorem C7_quantity_round_trip :
    (∀ n : ℕ, fractionToStr (strToFraction (natToStr n)) = natToStr n) ∧
    strToFraction "1 1/2" = 3 / 2 ∧ fractionToStr (3 / 2) = "1 1/2" := by
  refine ⟨?_, by decide, by decide⟩
  intro n
  rw [strToFraction_natToStr, fractionToStr_natCast]

/-! ## Claim C1: `find_ingredient` -/

theorem getLast?_cons_getD :
    ∀ (A : List ℕ) (i : ℕ), (i :: A).getLast? = some (A.getLast?.getD i) := by
  intro A
  induction A with
  | nil => intro i; rfl
  | cons a A ih =>
    intro i
    rw [List.getLast?_cons_cons, ih a]
    simp

theorem list_head_match (res : List ℕ) :
    (match res with | [] => (-1 : ℤ) | j :: _ => (j : ℤ)) =
      (match res.head? with | none => (-1 : ℤ) | some j => (j : ℤ)) := by
  cases res <;> rfl

theorem findLoop_head (c : String) :
    ∀ (l : List (Option IngredientV)) (i : ℕ) (acc : List ℕ),
      (findLoop c (1 / 2) i acc l).head? =
        match (idxAbove c i l).getLast? with
        | some j => some j
        | none => (acc ++ idxEq c i l).head? := by
  intro l
  induction l with
  | nil =>
    intro i acc
    simp [findLoop, idxAbove, idxEq]
  | cons o rest ih =>
    intro i acc
    match o with
    | none =>
      show (findLoop c (1 / 2) (i + 1) acc rest).head? = _
      rw [ih (i + 1) acc]
      rfl
    | some r =>
      simp only [findLoop, idxAbove, idxEq]
      by_cases h1 : (1 : ℚ) / 2 < matchScore c (joinDescName r)
      · have h2 : matchScore c (joinDescName r) ≠ (1 : ℚ) / 2 := ne_of_gt h1
        rw [if_pos h1, if_pos h1, if_neg h2, ih (i + 1) [i], getLast?_cons_getD]
        cases hA : (idxAbove c (i + 1) rest).getLast? <;> simp [hA]
      · by_cases h2 : matchScore c (joinDescName r) = (1 : ℚ) / 2
        · rw [if_neg h1, if_neg h1, if_pos h2, if_pos h2, ih (i + 1) (acc ++ [i])]
          cases hA : (idxAbove c (i + 1) rest).getLast? <;>
            simp [hA, List.append_assoc]
        · rw [if_neg h1, if_neg h1, if_neg h2, if_neg h2]
          exact ih (i + 1) acc

/-- C1 (amended): because the loop's `max_score` is never updated,
`find_ingredient` returns the last-encountered index among ingredients whose
score strictly exceeds 1/2; when no score exceeds 1/2 it returns the
first-encountered index whose score is exactly 1/2; and only when neither
exists (or the candidate is `None`) does it return no match (`-1`). -/
theorem C1_find_ingredient_characterization :
    (∀ ringrs, findIngredient none ringrs = -1) ∧
    ∀ (g : IngredientV) (ringrs : List (Option IngredientV)),
      findIngredient (some g) ringrs =
        match (idxAbove (joinDescName g) 0 ringrs).getLast? with
        | some j => (j : ℤ)
        | none =>
          match (idxEq (joinDescName g) 0 ringrs).head? with
          | some k => (k : ℤ)
          | none => -1 := by
  constructor
  · intro ringrs; rfl
  · intro g ringrs
    have h := findLoop_head (joinDescName g) ringrs 0 []
    rw [List.nil_append] at h
    show (match findLoop (joinDescName g) (1 / 2) 0 [] ringrs with
      | [] => (-1 : ℤ) | j :: _ => (j : ℤ)) = _
    rw [list_head_match, h]
    cases hA : (idxAbove (joinDescName g) 0 ringrs).getLast? with
    | some j => rfl
    | none =>
      cases hE : (idxEq (joinDescName g) 0 ringrs).head? <;> rfl

/-- C1 (counterexample): with candidate noun phrase "tofu" and recipe
ingredients ["tofu", "x tofu"], the scores are 2 and 1 — the strict maximum
2 is achieved first (and only) at index 0, which the claim says must be
returned, but `find_ingredient` returns 1 (each score above 1/2 overwrites
the candidate list because `max_score` is never updated). -/
theorem C1_counterexample :
    matchScore (joinDescName (mkIngr "tofu")) (joinDescName (mkIngr "tofu")) = 2 ∧
    matchScore (joinDescName (mkIngr "tofu")) (joinDescName (mkIngr "x tofu")) = 1 ∧
    findIngredientSpec (some (mkIngr "tofu"))
      [some (mkIngr "tofu"), some (mkIngr "x tofu")] = 0 ∧
    findIngredient (some (mkIngr "tofu"))
      [some (mkIngr "tofu"), some (mkIngr "x tofu")] = 1 := by
  refine ⟨by decide, by decide, by decide, by decide⟩

/-! ## Claim C3: `match_score` symmetry -/

theorem filter_mem_length_comm (l1 l2 : List (List Char))
    (h1 : l1.Nodup) (h2 : l2.Nodup) :
    (l1.filter (fun w => decide (w ∈ l2))).length =
      (l2.filter (fun w => decide (w ∈ l1))).length := by
  have e : ∀ (u v : List (List Char)), u.Nodup →
      (u.filter (fun w => decide (w ∈ v))).length = (u.toFinset ∩ v.toFinset).card := by
    intro u v hu
    rw [← List.toFinset_card_of_nodup (hu.filter _), List.toFinset_filter]
    congr 1
    ext x
    simp
  rw [e l1 l2 h1, e l2 l1 h2, Finset.inter_comm]

theorem matchScore_val (a b : String) :
    matchScore a b =
      if a = "" ∨ b = "" then 0
      else if a = b then 2
      else if (isSubstr a.data b.data || isSubstr b.data a.data) = true then 1
      else
        (((wsSplit (pyLower a).data).filter
            (fun w => decide (w ∈ wsSplit (pyLower b).data))).length : ℚ) /
          ((max (wsSplit (pyLower a).data).length (wsSplit (pyLower b).data).length : ℕ) + 1) :=
  rfl

/-- C3 (amended): `match_score(a, b) = match_score(b, a)` holds whenever
neither side's lower-cased word list contains a repeated word.  (With a
repeated word the shared-word count is asymmetric — see the
counterexample.) -/
theorem C3_match_score_symmetric_nodup (a b : String)
    (ha : (wsSplit (pyLower a).data).Nodup) (hb : (wsSplit (pyLower b).data).Nodup) :
    matchScore a b = matchScore b a := by
  by_cases he : a = "" ∨ b = ""
  · rw [matchScore_val a b, matchScore_val b a, if_pos he, if_pos (Or.symm he)]
  · by_cases heq : a = b
    · rw [heq]
    · by_cases hsub : (isSubstr a.data b.data || isSubstr b.data a.data) = true
      · rw [matchScore_val a b, matchScore_val b a, if_neg he,
          if_neg (fun h : b = "" ∨ a = "" => he (Or.symm h)), if_neg heq,
          if_neg (fun h : b = a => heq h.symm), if_pos hsub,
          if_pos (show (isSubstr b.data a.data || isSubstr a.data b.data) = true by
            rw [Bool.or_comm] at hsub; exact hsub)]
      · rw [matchScore_val a b, matchScore_val b a, if_neg he,
          if_neg (fun h : b = "" ∨ a = "" => he (Or.symm h)), if_neg heq,
          if_neg (fun h : b = a => heq h.symm), if_neg hsub,
          if_neg (show ¬ (isSubstr b.data a.data || isSubstr a.data b.data) = true by
            rw [Bool.or_comm] at hsub; exact hsub)]
        rw [filter_mem_length_comm _ _ ha hb, Nat.max_comm]

/-- C3 (witness): the symmetry theorem applied at the concrete pair
`"x"`, `"y z"`, whose word lists are duplicate-free. -/
theorem C3_match_score_symmetric_witness :
    (wsSplit (pyLower "x").data).Nodup ∧ (wsSplit (pyLower "y z").data).Nodup ∧
    matchScore "x" "y z" = matchScore "y z" "x" :=
  ⟨by decide, by decide,
    C3_match_score_symmetric_nodup "x" "y z" (by decide) (by decide)⟩

/-- C3 (counterexample): with a repeated word the claim fails —
`match_score("a a", "a b")` is `2/3` while `match_score("a b", "a a")` is
`1/3`: both words of `"a a"` are found in `"a b"`'s word list, but only one
word of `"a b"` is found in `"a a"`'s. -/
theorem C3_counterexample :
    matchScore "a a" "a b" = 2 / 3 ∧ matchScore "a b" "a a" = 1 / 3 ∧
    matchScore "a a" "a b" ≠ matchScore "a b" "a a" := by
  refine ⟨by decide, by decide, by decide⟩

/-! ## Claim C9: absent ingredients -/

theorem nameScanGo_no_food (cls : String → List NounType) (nm : String) (idx0 i0 : ℕ) :
    ∀ (l : List Token), (∀ t ∈ l, NounType.FOOD ∉ cls t.text) →
      ∀ (ind : ℕ) (parens : ℤ) (post : Bool),
        (nameScanGo cls nm idx0 i0 ind parens post false l).isFood = false := by
  intro l
  induction l with
  | nil => intro _ ind parens post; rfl
  | cons t rest ih =>
    intro h ind parens post
    have ht : NounType.FOOD ∉ cls t.text := h t (by simp)
    have hrest := ih (fun x hx => h x (by simp [hx]))
    simp only [nameScanGo, decide_eq_false ht, Bool.or_false]
    split_ifs <;> first | rfl | exact hrest _ _ _

/-- C9 (amended): a candidate line in which no token classifies as FOOD
(including the empty line) parses to absent (`none`) rather than raising;
but `parse_recipe` does not filter absent results out — an absent parse is
kept, at its position, in the recipe's ingredient list. -/
theorem C9_parse_absent_kept :
    (∀ (nm : String) (doc : List Token) (cls : String → List NounType),
        (∀ t ∈ doc, NounType.FOOD ∉ cls t.text) → fromStr nm doc cls = none) ∧
    (∀ (nlpF : String → List Token) (cls : String → List NounType)
        (lines : List String) (i : ℕ) (l : String),
        lines.get? i = some l → fromStr l (nlpF l) cls = none →
        (recipeIngredients nlpF cls lines).get? i = some none) := by
  constructor
  · intro nm doc cls h
    have hfood : ∀ (x y : ℕ), (nameScan doc cls nm x y).isFood = false := by
      intro x y
      exact nameScanGo_no_food cls nm x y (doc.drop y)
        (fun t ht => h t (List.mem_of_mem_drop ht)) y 0 false
    simp [fromStr, hfood]
  · intro nlpF cls lines i l hline hnone
    unfold recipeIngredients
    rw [List.get?_map, hline]
    simp [hnone]

/-- C9 (witness): the theorem applied at the empty line with an
empty-category classifier: the parse is absent, and the absent entry is kept
at position 0 of the recipe ingredient list. -/
theorem C9_parse_absent_kept_witness :
    fromStr "" [] clsNone = none ∧
    (recipeIngredients nlpEmpty clsNone [""]).get? 0 = some none :=
  ⟨C9_parse_absent_kept.1 "" [] clsNone (by simp),
   C9_parse_absent_kept.2 nlpEmpty clsNone [""] 0 "" rfl
     (C9_parse_absent_kept.1 "" (nlpEmpty "") clsNone (by simp [nlpEmpty]))⟩

/-- C9 (counterexample): the recipe ingredient list built by `parse_recipe`
from the single line `""` is `[None]` — it contains an absent entry, so
`Recipe.ingredients` is not free of absent entries as claimed. -/
theorem C9_counterexample :
    recipeIngredients nlpEmpty clsNone [""] = [none] ∧
    none ∈ recipeIngredients nlpEmpty clsNone [""] :=
  ⟨by decide, by decide⟩

/-! ## Claim C2: the cross-referencing pass -/

/-- C2 (code evidence): on a recipe whose ingredient list is `["tofu"]` and a
step whose single noun phrase parses to `"tofu"`, the phrase resolves to
ingredient 0 (score 2 > 1/2), and the pass then executes
`recipe.ingredients[0].used.append(...)` — an `AttributeError`, because
`Ingredient.used` is declared a `set` (`recipe.py:27`) and Python sets have
no `append` method.  The pass raises instead of recording the
back-reference. -/
theorem C2_used_append_raises :
    crossRefStep 0 [some (mkIngr "tofu")] ([some (mkIngr "tofu")], []) =
      .error "AttributeError: 'set' object has no attribute 'append'" := by
  decide

/-! ## Claim C4: substitution text rewriting -/

/-- C4 (amended): the active `substitute_text` applies the table keys
longest-key-first (stable for equal lengths) with whole-word
case-insensitive matching, and performs no orphaned-qualifier stripping, no
trailing-conjunction trimming and no whitespace collapsing; on
`"chicken breast, deveined"` the vegetarian table replaces `"chicken"` and
deletes `"breast"`, yielding `"extra-firm tofu, cubed , deveined"` with the
orphaned `"deveined"` (and the orphaned comma and double space) left in
place. -/
theorem C4_substitute_text_no_cleanup :
    (sortSubs VEGETARIAN_SUBSTITUTIONS).map Prod.fst =
      ["chicken broth", "meatballs", "drumstick", "chicken", "sausage", "gelatin",
       "mussels", "shrimp", "breast", "cutlet", "bacon", "squid", "thigh", "beef",
       "pork", "fish", "bone", "wing", "rib"] ∧
    substituteText (sortSubs VEGETARIAN_SUBSTITUTIONS) "chicken breast, deveined" =
      "extra-firm tofu, cubed , deveined" := by
  refine ⟨by decide, by decide⟩

/-- C4 (counterexample): after the vegetarian table is applied to
`"chicken breast, deveined"`, the word `"deveined"` is still present in the
output — the claimed stripping of orphaned butchery/prep qualifiers does not
happen in the active code. -/
theorem C4_counterexample :
    isSubstr "deveined".data
      (substituteText (sortSubs VEGETARIAN_SUBSTITUTIONS)
        "chicken breast, deveined").data = true ∧
    isSubstr "  ".data
      (substituteText (sortSubs VEGETARIAN_SUBSTITUTIONS)
        "chicken breast, deveined").data = false ∧
    isSubstr " , ".data
      (substituteText (sortSubs VEGETARIAN_SUBSTITUTIONS)
        "chicken breast, deveined").data = true := by
  refine ⟨by decide, by decide, by decide⟩

/-! ## Claims C5 and C8: `handle_transformation` -/

theorem quantityChange_eq_map (l : List (Option IngredientV)) (factor : ℚ) :
    quantityChange l factor =
      l.map (Option.map (fun i =>
        { i with quantity := i.quantity.map (fun q => q * factor) })) := by
  unfold quantityChange
  refine congrArg (fun f => List.map f l) (funext ?_)
  intro oi
  rcases oi with - | ⟨nm, q, u, d, p, us⟩
  · rfl
  · rcases q with - | q
    · rfl
    · by_cases hz : q = 0
      · subst hz
        simp [zero_mul]
      · simp [hz]

/-- C5 (amended): for every heap, recipe and transformation kind,
`handle_transformation` completes and constructs a new recipe whose
`ingredients` and `steps` are freshly allocated objects, whose `tools`,
`methods` and `other` fields are reference-shared (aliased) with the source
recipe — not copied — and it leaves every object of the input heap (hence
every field of the source recipe) unmodified. -/
theorem C5_transform_aliases_metadata :
    ∀ (h : Heap) (r : PyRecipe) (t : Transformation),
      ∃ (h2 : Heap) (r2 : PyRecipe),
        handleTransformation h r t = .ok (h2, r2) ∧
        r2.tools = r.tools ∧ r2.methods = r.methods ∧ r2.other = r.other ∧
        (∀ a, a < h.objs.length → h2.objs.get? a = h.objs.get? a) ∧
        h.objs.length ≤ r2.ingredients ∧ h.objs.length ≤ r2.steps := by
  intro h r t
  cases t <;>
  · refine ⟨_, _, rfl, rfl, rfl, rfl, ?_, ?_, ?_⟩
    · intro a ha
      rw [List.get?_append (by simp; omega), List.get?_append ha]
    · exact Nat.le_refl _
    · simp [alloc]

/-- C5 (counterexample): on the concrete heap `exHeap` (where `exRecipe`'s
five container fields occupy addresses 0–4), the DOUBLE transformation's
output recipe holds the very same `tools`, `methods` and `other` addresses
as the source — the fields are aliased, not copied by value: a copy would
live at a fresh address (at least `exHeap.objs.length = 5`), but the output
addresses are the source's 2, 3 and 4. -/
theorem C5_counterexample :
    (handleTransformation exHeap exRecipe .DOUBLE).map
        (fun p => (p.2.tools, p.2.methods, p.2.other)) =
      .ok (exRecipe.tools, exRecipe.methods, exRecipe.other) ∧
    exRecipe.tools < exHeap.objs.length ∧ exRecipe.methods < exHeap.objs.length ∧
    exRecipe.other < exHeap.objs.length := by
  refine ⟨by decide, by decide, by decide, by decide⟩

theorem getIngrs_two_alloc (h : Heap) (l : List (Option IngredientV)) (st : List StepV) :
    getIngrs ⟨(h.objs ++ [.ingrs l]) ++ [.steps st]⟩ h.objs.length = l := by
  unfold getIngrs
  rw [List.get?_append (by simp), List.get?_concat_length]

theorem getSteps_two_alloc (h : Heap) (l : List (Option IngredientV)) (st : List StepV) :
    getSteps ⟨(h.objs ++ [.ingrs l]) ++ [.steps st]⟩ ((h.objs ++ [Obj.ingrs l]).length) = st := by
  unfold getSteps
  rw [List.get?_concat_length]

/-- C8: the DOUBLE and HALF transformations build a deep copy of the
ingredient list (a freshly allocated object, the source list untouched) in
which every present quantity is multiplied by the exact rational `2`
(respectively `1/2` — the float `0.5` is converted to the exact rational
`1/2` before multiplying), and the step list is copied with its text
unchanged; in particular doubling a quantity of `1/3` yields exactly
`2/3`. -/
theorem C8_scaling_exact :
    (∀ (h : Heap) (r : PyRecipe), ∃ (h2 : Heap) (r2 : PyRecipe),
        handleTransformation h r .DOUBLE = .ok (h2, r2) ∧
        getIngrs h2 r2.ingredients =
          (getIngrs h r.ingredients).map (Option.map (fun i =>
            { i with quantity := i.quantity.map (fun q => q * 2) })) ∧
        getSteps h2 r2.steps = getSteps h r.steps ∧
        h.objs.length ≤ r2.ingredients ∧
        (∀ a, a < h.objs.length → h2.objs.get? a = h.objs.get? a)) ∧
    (∀ (h : Heap) (r : PyRecipe), ∃ (h2 : Heap) (r2 : PyRecipe),
        handleTransformation h r .HALF = .ok (h2, r2) ∧
        getIngrs h2 r2.ingredients =
          (getIngrs h r.ingredients).map (Option.map (fun i =>
            { i with quantity := i.quantity.map (fun q => q * (1 / 2)) })) ∧
        getSteps h2 r2.steps = getSteps h r.steps ∧
        h.objs.length ≤ r2.ingredients ∧
        (∀ a, a < h.objs.length → h2.objs.get? a = h.objs.get? a)) ∧
    (handleTransformation exHeap exRecipe .DOUBLE).map
        (fun p => getIngrs p.1 p.2.ingredients) =
      .ok [some { mkIngr "milk" with quantity := some (2 / 3) }] := by
  refine ⟨?_, ?_, by decide⟩ <;>
  · intro h r
    refine ⟨_, _, rfl, ?_, ?_, Nat.le_refl _, ?_⟩
    · exact (getIngrs_two_alloc h _ _).trans (quantityChange_eq_map _ _)
    · exact getSteps_two_alloc h _ _
    · intro a ha
      rw [List.get?_append (by simp; omega), List.get?_append ha]

/-! ## Claim C10: `get_substitutions` -/

/-- C10: `get_substitutions` returns its static (nonempty) table for each of
the seven substitution kinds, but for DOUBLE and HALF it raises an
`AttributeError` instead of reaching the `case _` fallback that would return
the empty table: the preceding case's value pattern names
`Transformation.LACTOSE_FREE`, a member the enum does not have, so its
evaluation raises first and the fallback is unreachable (no kind ever yields
the empty table). -/
theorem C10_get_substitutions_raises :
    get_substitutions .TO_VEGETARIAN = .ok VEGETARIAN_SUBSTITUTIONS ∧
    get_substitutions .FROM_VEGETARIAN = .ok NON_VEGETARIAN_SUBSTITUTIONS ∧
    get_substitutions .TO_HEALTHY = .ok HEALTHY_SUBSTITUTIONS ∧
    get_substitutions .FROM_HEALTHY = .ok UNHEALTHY_SUBSTITUTIONS ∧
    get_substitutions .TO_ITALIAN = .ok ITALIAN_SUBSTITUTIONS ∧
    get_substitutions .TO_MEXICAN = .ok MEXICAN_SUBSTITUTIONS ∧
    get_substitutions .GLUTEN_FREE = .ok GLUTEN_FREE_SUBSTITUTIONS ∧
    get_substitutions .DOUBLE = .error "AttributeError: LACTOSE_FREE" ∧
    get_substitutions .HALF = .error "AttributeError: LACTOSE_FREE" ∧
    ∀ t, get_substitutions t ≠ .ok [] := by
  refine ⟨rfl, rfl, rfl, rfl, rfl, rfl, rfl, by decide, by decide, ?_⟩
  intro t
  cases t <;> decide
